import Mathlib

/-!
Verification of the search-chunk build pipeline
(`scripts/build_search_chunks.py`): a shallow embedding of the
dialogue-flattening extractor, the greedy byte-budget chunker and the
packager/manifest writer, together with proofs of the specified
properties.
-/

set_option maxRecDepth 8000

namespace BuildSearchChunks

/-! ## UTF-8 byte accounting

Python measures record sizes with `len(json_string.encode('utf-8'))`.
We model the UTF-8 encoding of a character explicitly. -/

/-- The UTF-8 encoding of a single character, as a list of byte values. -/
def utf8Bytes (c : Char) : List Nat :=
  let n := c.toNat
  if n < 0x80 then [n]
  else if n < 0x800 then [0xC0 + n / 64, 0x80 + n % 64]
  else if n < 0x10000 then
    [0xE0 + n / 4096, 0x80 + n / 64 % 64, 0x80 + n % 64]
  else
    [0xF0 + n / 262144, 0x80 + n / 4096 % 64, 0x80 + n / 64 % 64, 0x80 + n % 64]

/-- Number of UTF-8 bytes of one character. -/
def charBytes (c : Char) : Nat := (utf8Bytes c).length

/-- The UTF-8 encoding of a string as a byte list (`s.encode('utf-8')`). -/
def strUtf8 (s : String) : List Nat := s.data.flatMap utf8Bytes

/-- UTF-8 byte length of a string (`len(s.encode('utf-8'))`). -/
def strBytes (s : String) : Nat := (s.data.map charBytes).sum

theorem strBytes_eq_length_strUtf8 (s : String) : strBytes s = (strUtf8 s).length := by
  rw [strBytes, strUtf8, List.length_flatMap]
  rfl

theorem strBytes_append (a b : String) :
    strBytes (a ++ b) = strBytes a + strBytes b := by
  simp [strBytes, String.data_append]

/-! ## JSON string encoding

`json.dumps` with `ensure_ascii=False`: `"` and `\` are escaped, the
control characters below 0x20 use the two-character escapes
`\b \f \n \r \t` or a `\u00xx` escape, and every other character passes
through verbatim. -/

/-- Lowercase hexadecimal digit. -/
def hexDig (n : Nat) : Char :=
  if n < 10 then Char.ofNat (48 + n) else Char.ofNat (87 + n)

/-- How `json.dumps(..., ensure_ascii=False)` renders one character inside a
string literal. -/
def jsonEscapeChar (c : Char) : List Char :=
  if c = '"' then ['\\', '"']
  else if c = '\\' then ['\\', '\\']
  else if c = '\x08' then ['\\', 'b']
  else if c = '\x0c' then ['\\', 'f']
  else if c = '\n' then ['\\', 'n']
  else if c = '\r' then ['\\', 'r']
  else if c = '\t' then ['\\', 't']
  else if c.toNat < 0x20 then
    ['\\', 'u', '0', '0', hexDig (c.toNat / 16), hexDig (c.toNat % 16)]
  else [c]

/-- JSON string literal for `s`: quote, escaped characters, quote. -/
def jsonString (s : String) : String :=
  "\"" ++ String.mk (s.data.flatMap jsonEscapeChar) ++ "\""

/-! ## Records

`extract_dialogues_recursive` appends dicts with the five keys
`scenarioType, scenarioId, speaker, content, title`, in that insertion
order, so every serialization of a record lists the keys in exactly that
order. -/

structure Record where
  scenarioType : String
  scenarioId : String
  speaker : String
  content : String
  title : String
deriving DecidableEq, Repr

/-- Serialization of one record dict with item separator `isep` and
key separator `ksep`, mirroring `json.dumps`'s `separators` parameter.
Keys appear in dict insertion order. -/
def dumpsRecordWith (isep ksep : String) (r : Record) : String :=
  "\x7b\"scenarioType\"" ++ ksep ++ jsonString r.scenarioType ++
  isep ++ "\"scenarioId\"" ++ ksep ++ jsonString r.scenarioId ++
  isep ++ "\"speaker\"" ++ ksep ++ jsonString r.speaker ++
  isep ++ "\"content\"" ++ ksep ++ jsonString r.content ++
  isep ++ "\"title\"" ++ ksep ++ jsonString r.title ++ "\x7d"

/-- Serialization `json.dumps(dialogue, ensure_ascii=False)` — the default separators
are `', '` and `': '` (with a space each). Used by `split_into_chunks`. -/
def jsonDumpsRecord (r : Record) : String := dumpsRecordWith ", " ": " r

/-- The compact serialization `json.dumps(..., separators=(',', ':'))`
used inside the chunk artifacts written by `compress_and_save_chunks`. -/
def jsonDumpsRecordCompact (r : Record) : String := dumpsRecordWith "," ":" r

/-- The `dialogue_size` computed in `split_into_chunks`:
`len(json.dumps(dialogue, ensure_ascii=False).encode('utf-8'))`. -/
def dialogueSize (r : Record) : Nat := strBytes (jsonDumpsRecord r)

/-- Byte length of the compact serialization of one record. -/
def compactSize (r : Record) : Nat := strBytes (jsonDumpsRecordCompact r)

/-- Total measured size of a chunk: the sum of its records' `dialogueSize`. -/
def measuredSize (c : List Record) : Nat := (c.map dialogueSize).sum

/-! ## The chunker (`split_into_chunks`) -/

/-- Target chunk size (uncompressed): `CHUNK_SIZE_BYTES = 4 * 1024 * 1024`. -/
def CHUNK_SIZE_BYTES : Nat := 4 * 1024 * 1024

/-- The loop of `split_into_chunks`: state is the closed `chunks`, the
accumulating `current_chunk` and its running `current_size`.  When adding
the next dialogue would exceed the budget and the accumulating chunk is
non-empty, the accumulating chunk is closed first; the dialogue is then
appended and its size added. After the loop a non-empty accumulating
chunk is closed. -/
def splitGo (chunk_size_bytes : Nat) :
    List Record → List (List Record) → List Record → Nat → List (List Record)
  | [], chunks, current, _ =>
      if current = [] then chunks else chunks ++ [current]
  | d :: rest, chunks, current, size =>
      if size + dialogueSize d > chunk_size_bytes ∧ current ≠ [] then
        splitGo chunk_size_bytes rest (chunks ++ [current]) [d] (dialogueSize d)
      else
        splitGo chunk_size_bytes rest chunks (current ++ [d]) (size + dialogueSize d)

/-- Model of `split_into_chunks(dialogues, chunk_size_bytes)`. -/
def split_into_chunks (dialogues : List Record) (chunk_size_bytes : Nat) :
    List (List Record) :=
  splitGo chunk_size_bytes dialogues [] [] 0

/-! Invariant lemmas about the chunker loop. -/

theorem splitGo_flatten (B : Nat) (rest : List Record) :
    ∀ chunks current size,
      (splitGo B rest chunks current size).flatten = chunks.flatten ++ current ++ rest := by
  induction rest with
  | nil =>
      intro chunks current size
      by_cases h : current = [] <;> simp [splitGo, h]
  | cons d rest ih =>
      intro chunks current size
      rw [splitGo]
      by_cases h : size + dialogueSize d > B ∧ current ≠ []
      · rw [if_pos h, ih]; simp
      · rw [if_neg h, ih]; simp

theorem measuredSize_append (a b : List Record) :
    measuredSize (a ++ b) = measuredSize a + measuredSize b := by
  simp [measuredSize]

theorem measuredSize_singleton (d : Record) : measuredSize [d] = dialogueSize d := by
  simp [measuredSize]

theorem dialogueSize_le_measuredSize (r : Record) (c : List Record) (h : r ∈ c) :
    dialogueSize r ≤ measuredSize c :=
  List.single_le_sum (fun x _ => Nat.zero_le x) _ (List.mem_map_of_mem _ h)

/-- The invariant every chunk closed by the splitter satisfies: it is
non-empty, its total measured size fits the budget unless it is a single
oversized record, and an oversized record can only appear alone. -/
def goodChunk (B : Nat) (c : List Record) : Prop :=
  c ≠ [] ∧ (measuredSize c ≤ B ∨ ∃ r, c = [r] ∧ B < dialogueSize r) ∧
    ∀ r ∈ c, B < dialogueSize r → c = [r]

theorem goodChunk_singleton (B : Nat) (d : Record) : goodChunk B [d] := by
  refine ⟨by simp, ?_, ?_⟩
  · rcases le_or_lt (dialogueSize d) B with h | h
    · exact Or.inl (by simpa [measuredSize_singleton] using h)
    · exact Or.inr ⟨d, rfl, h⟩
  · intro r hr _
    simp only [List.mem_singleton] at hr
    subst hr; rfl

theorem splitGo_good (B : Nat) (rest : List Record) :
    ∀ chunks current,
      (∀ c ∈ chunks, goodChunk B c) →
      (measuredSize current ≤ B ∨ ∃ r, current = [r] ∧ B < dialogueSize r) →
      (∀ r ∈ current, B < dialogueSize r → current = [r]) →
      ∀ c ∈ splitGo B rest chunks current (measuredSize current), goodChunk B c := by
  induction rest with
  | nil =>
      intro chunks current hchunks h1 h2 c hc
      rw [splitGo] at hc
      by_cases h : current = []
      · rw [if_pos h] at hc; exact hchunks c hc
      · rw [if_neg h] at hc
        rcases List.mem_append.mp hc with hm | hm
        · exact hchunks c hm
        · simp only [List.mem_singleton] at hm
          subst hm; exact ⟨h, h1, h2⟩
  | cons d rest ih =>
      intro chunks current hchunks h1 h2 c hc
      rw [splitGo] at hc
      by_cases hce : current = []
      · subst hce
        rw [if_neg (by simp)] at hc
        have hm : measuredSize [] + dialogueSize d = measuredSize ([] ++ [d]) := by
          simp [measuredSize]
        rw [hm] at hc
        refine ih chunks ([] ++ [d]) hchunks ?_ ?_ c hc
        · simp only [List.nil_append]; exact (goodChunk_singleton B d).2.1
        · simp only [List.nil_append]; exact (goodChunk_singleton B d).2.2
      · by_cases hs : measuredSize current + dialogueSize d > B
        · rw [if_pos ⟨hs, hce⟩] at hc
          have hm : dialogueSize d = measuredSize [d] := (measuredSize_singleton d).symm
          rw [hm] at hc
          refine ih (chunks ++ [current]) [d] ?_ ?_ ?_ c hc
          · intro c' hc'
            rcases List.mem_append.mp hc' with hm' | hm'
            · exact hchunks c' hm'
            · simp only [List.mem_singleton] at hm'
              subst hm'; exact ⟨hce, h1, h2⟩
          · exact (goodChunk_singleton B d).2.1
          · exact (goodChunk_singleton B d).2.2
        · rw [if_neg (by intro hand; exact hs hand.1)] at hc
          push_neg at hs
          have hm : measuredSize current + dialogueSize d = measuredSize (current ++ [d]) := by
            simp [measuredSize_append, measuredSize_singleton]
          rw [hm] at hc
          have hle : measuredSize (current ++ [d]) ≤ B := by
            rw [← hm]; exact hs
          refine ih chunks (current ++ [d]) hchunks (Or.inl hle) ?_ c hc
          intro r hr hgt
          exact absurd (Nat.le_trans (dialogueSize_le_measuredSize r _ hr) hle)
            (Nat.not_le_of_lt hgt)

theorem split_into_chunks_good (R : List Record) (B : Nat) :
    ∀ c ∈ split_into_chunks R B, goodChunk B c := by
  have h0 : measuredSize ([] : List Record) = 0 := by simp [measuredSize]
  intro c hc
  refine splitGo_good B R [] [] (by simp) ?_ (by simp) c ?_
  · exact Or.inl (by simp [h0])
  · rw [split_into_chunks] at hc
    rw [h0]
    exact hc

/-! ## Claims about the chunker alone -/

/-- A sample record used to instantiate hypotheses of proved theorems at
concrete inputs. -/
def sampleRecord : Record :=
  { scenarioType := "a", scenarioId := "b", speaker := "c", content := "d",
    title := "e" }

/-- C1: for every record sequence `R` and positive byte budget `B`,
concatenating the chunks of `split_into_chunks R B` in order yields
exactly `R`. -/
theorem C1_lossless_partition (R : List Record) (B : Nat) (_hB : 0 < B) :
    (split_into_chunks R B).flatten = R := by
  simp [split_into_chunks, splitGo_flatten]

theorem C1_lossless_partition_witness :
    0 < 10 ∧ (split_into_chunks [sampleRecord] 10).flatten = [sampleRecord] :=
  ⟨by decide, C1_lossless_partition [sampleRecord] 10 (by decide)⟩

/-- C6: a record whose own measured encoded size exceeds `B` is never
split: it is always the sole record of its chunk, and that chunk's size
exceeds `B`. -/
theorem C6_oversized_record_is_sole (R : List Record) (B : Nat)
    (c : List Record) (r : Record) (hc : c ∈ split_into_chunks R B)
    (hr : r ∈ c) (hover : B < dialogueSize r) :
    c = [r] ∧ B < measuredSize c := by
  have hgood := split_into_chunks_good R B c hc
  have heq := hgood.2.2 r hr hover
  exact ⟨heq, by rw [heq, measuredSize_singleton]; exact hover⟩

theorem C6_oversized_record_is_sole_witness :
    ([sampleRecord] ∈ split_into_chunks [sampleRecord] 3 ∧
      sampleRecord ∈ [sampleRecord] ∧ 3 < dialogueSize sampleRecord) ∧
    [sampleRecord] = [sampleRecord] ∧ 3 < measuredSize [sampleRecord] :=
  ⟨⟨by decide, by decide, by decide⟩,
    C6_oversized_record_is_sole [sampleRecord] 3 [sampleRecord] sampleRecord
      (by decide) (by decide) (by decide)⟩

/-! ## The chunk artifact encoding

`compress_and_save_chunks` serializes
`{'dialogues': chunk, 'chunkIndex': idx, 'totalChunks': total}` with
`json.dumps(..., ensure_ascii=False, separators=(',', ':'))`. -/

/-- The compact JSON array of a chunk's records, comma separated. -/
def encodeDialoguesArr : List Record → String
  | [] => ""
  | [r] => jsonDumpsRecordCompact r
  | r :: rest => jsonDumpsRecordCompact r ++ "," ++ encodeDialoguesArr rest

/-- The compact serialization of one chunk's `chunk_data` dict, exactly as
written (before compression) by `compress_and_save_chunks`. -/
def encodeChunkData (chunk : List Record) (idx total : Nat) : String :=
  "\x7b\"dialogues\":[" ++ encodeDialoguesArr chunk ++ "],\"chunkIndex\":" ++
    Nat.repr idx ++ ",\"totalChunks\":" ++ Nat.repr total ++ "\x7d"

/-- Byte size of the serialized chunk artifact before compression. -/
def chunkEncodedSize (chunk : List Record) (idx total : Nat) : Nat :=
  strBytes (encodeChunkData chunk idx total)

/-- The default-separator serialization measured by the splitter is exactly
9 bytes longer than the compact serialization written to the artifacts:
one space after each of the four item separators and five key separators
of the five-key record dict. -/
theorem dialogueSize_eq_compactSize_add_nine (r : Record) :
    dialogueSize r = compactSize r + 9 := by
  have h1 : strBytes ", " = 2 := by decide
  have h2 : strBytes ": " = 2 := by decide
  have h3 : strBytes "," = 1 := by decide
  have h4 : strBytes ":" = 1 := by decide
  simp only [dialogueSize, compactSize, jsonDumpsRecord, jsonDumpsRecordCompact,
    dumpsRecordWith, strBytes_append, h1, h2, h3, h4]
  omega

theorem measuredSize_eq_compact (c : List Record) :
    measuredSize c = (c.map compactSize).sum + 9 * c.length := by
  induction c with
  | nil => simp [measuredSize]
  | cons r rest ih =>
      simp only [measuredSize, List.map_cons, List.sum_cons, List.length_cons] at *
      rw [dialogueSize_eq_compactSize_add_nine, ih]
      ring

theorem strBytes_encodeDialoguesArr (c : List Record) (h : c ≠ []) :
    strBytes (encodeDialoguesArr c) + 1 = (c.map compactSize).sum + c.length := by
  induction c with
  | nil => exact absurd rfl h
  | cons r rest ih =>
      cases rest with
      | nil => simp [encodeDialoguesArr, compactSize]
      | cons r' rest' =>
          have h5 : strBytes "," = 1 := by decide
          rw [show encodeDialoguesArr (r :: r' :: rest') =
              jsonDumpsRecordCompact r ++ "," ++ encodeDialoguesArr (r' :: rest') from rfl]
          have := ih (by simp)
          simp only [strBytes_append, h5, List.map_cons, List.sum_cons,
            List.length_cons, compactSize] at *
          omega

/-- C2 (amended): every chunk, except possibly one holding a single
record whose measured size exceeds `B`, has total measured record size at
most `B` (the sizes the splitter sums, i.e. default-separator
serializations); its written compact artifact can exceed `B` only by the
fixed chunk envelope, so its encoded byte size is at most
`B + 36 +` the decimal lengths of the chunk index and total count. -/
theorem C2_amended_size_bound (R : List Record) (B : Nat) (c : List Record)
    (hc : c ∈ split_into_chunks R B) :
    (∃ r, c = [r] ∧ B < dialogueSize r) ∨
      (measuredSize c ≤ B ∧ ∀ idx total : Nat,
        chunkEncodedSize c idx total ≤
          B + 36 + strBytes (Nat.repr idx) + strBytes (Nat.repr total)) := by
  have hgood := split_into_chunks_good R B c hc
  rcases hgood.2.1 with hle | hover
  · refine Or.inr ⟨hle, ?_⟩
    intro idx total
    have hne : c ≠ [] := hgood.1
    have hk : 1 ≤ c.length := by
      cases c with
      | nil => exact absurd rfl hne
      | cons _ _ => simp
    have harr := strBytes_encodeDialoguesArr c hne
    have hm := measuredSize_eq_compact c
    have e1 : strBytes "\x7b\"dialogues\":[" = 14 := by decide
    have e2 : strBytes "],\"chunkIndex\":" = 15 := by decide
    have e3 : strBytes ",\"totalChunks\":" = 15 := by decide
    have e4 : strBytes "\x7d" = 1 := by decide
    simp only [chunkEncodedSize, encodeChunkData, strBytes_append, e1, e2, e3, e4]
    omega
  · exact Or.inl hover

theorem C2_amended_size_bound_witness :
    [sampleRecord] ∈ split_into_chunks [sampleRecord] 86 ∧
      ((∃ r, [sampleRecord] = [r] ∧ 86 < dialogueSize r) ∨
        (measuredSize [sampleRecord] ≤ 86 ∧ ∀ idx total : Nat,
          chunkEncodedSize [sampleRecord] idx total ≤
            86 + 36 + strBytes (Nat.repr idx) + strBytes (Nat.repr total))) :=
  ⟨by decide, C2_amended_size_bound [sampleRecord] 86 [sampleRecord] (by decide)⟩

/-- C2 is false as stated: with `B = 86` and a single record whose
compact encoding is 77 bytes (and whose measured default-separator
encoding is 86 bytes, both at most `B`), the splitter produces one chunk
`[r]`, yet the compact artifact actually written for it (index 0 of 1) is
124 bytes, exceeding `B`; the chunk is not one containing a single record
whose own encoded size exceeds `B`. -/
theorem C2_counterexample :
    split_into_chunks [sampleRecord] 86 = [[sampleRecord]] ∧
      compactSize sampleRecord ≤ 86 ∧ dialogueSize sampleRecord ≤ 86 ∧
      chunkEncodedSize [sampleRecord] 0 1 = 124 ∧ 86 < 124 := by
  decide

/-- C8 (amended): the per-record size used by the splitter is the byte
length of the record under `json.dumps`'s default separators
(`', '`/`': '`), which is exactly 9 bytes more than the compact
serialization used for the written chunk artifacts — not equal to it. -/
theorem C8_amended_split_size_vs_compact (r : Record) :
    dialogueSize r = compactSize r + 9 :=
  dialogueSize_eq_compactSize_add_nine r

/-- C8 is false as stated: for a concrete record the splitter measures
86 bytes while the compact serialization written to the artifact is 77
bytes. -/
theorem C8_counterexample :
    dialogueSize sampleRecord = 86 ∧ compactSize sampleRecord = 77 ∧
      dialogueSize sampleRecord ≠ compactSize sampleRecord := by
  decide

/-! ## Packager and manifest (`compress_and_save_chunks`) -/

/-- The `chunk_data` dict built for each chunk before serialization. -/
structure ChunkData where
  dialogues : List Record
  chunkIndex : Nat
  totalChunks : Nat
deriving DecidableEq, Repr

/-- One entry of the manifest's `chunks` list. -/
structure ChunkDescriptor where
  filename : String
  index : Nat
  uncompressedSize : Nat
  compressedSize : Nat
  dialogueCount : Nat
deriving DecidableEq, Repr

/-- The manifest dict written to `manifest.json`. -/
structure Manifest where
  version : String
  timestamp : String
  totalChunks : Nat
  chunks : List ChunkDescriptor
  eventNames : List (Nat × String)
  totalCompressedSize : Nat
deriving DecidableEq, Repr

/-- The values a run reads from the system clock: `version` from
`datetime.now().strftime('%Y-%m-%d')` in `main`, the manifest `timestamp`
from `datetime.now().isoformat()`, and the modification time the `gzip`
module stores in each compressed file's header. -/
structure RunClock where
  versionDate : String
  timestamp : String
  mtime : Nat
deriving DecidableEq, Repr

/-- Modelled from CPython's documented `gzip.compress(data, compresslevel=9)`
output (RFC 1952): a 10-byte member header — magic `1f 8b`, method 8
(deflate), flags 0, the current time as a 4-byte little-endian
modification time (the current time is stored when no `mtime` argument is
given), then the XFL and OS bytes — followed by the deflate body and the
CRC-32/length trailer, which are a deterministic function of the input
bytes at a fixed compression level and are abstracted here as the `body`
parameter. -/
def gzipCompress (body : List Nat → List Nat) (mtime : Nat) (data : List Nat) :
    List Nat :=
  [0x1f, 0x8b, 8, 0,
    mtime % 256, mtime / 256 % 256, mtime / 65536 % 256, mtime / 16777216 % 256,
    2, 255] ++ body data

/-- The `chunk_data` dicts built by the packager loop: each chunk with its
0-based index and the total chunk count. -/
def chunkDatasOf (chunks : List (List Record)) : List ChunkData :=
  chunks.enum.map fun p => ChunkData.mk p.2 p.1 chunks.length

/-- Bytes written to `search-chunk-<idx>.gz` for one chunk. -/
def chunkFileBytes (body : List Nat → List Nat) (mtime : Nat) (cd : ChunkData) :
    List Nat :=
  gzipCompress body mtime
    (strUtf8 (encodeChunkData cd.dialogues cd.chunkIndex cd.totalChunks))

/-- The manifest descriptor recorded for one chunk. -/
def descriptorOf (body : List Nat → List Nat) (mtime : Nat) (cd : ChunkData) :
    ChunkDescriptor :=
  { filename := "search-chunk-" ++ Nat.repr cd.chunkIndex ++ ".gz"
    index := cd.chunkIndex
    uncompressedSize := strBytes (encodeChunkData cd.dialogues cd.chunkIndex cd.totalChunks)
    compressedSize := (chunkFileBytes body mtime cd).length
    dialogueCount := cd.dialogues.length }

/-- Model of `compress_and_save_chunks(chunks, event_names, version)`: the chunk
files written to disk and the manifest written to `manifest.json`. -/
def compress_and_save_chunks (body : List Nat → List Nat) (clock : RunClock)
    (chunks : List (List Record)) (event_names : List (Nat × String))
    (version : String) : List (List Nat) × Manifest :=
  let cds := chunkDatasOf chunks
  (cds.map (chunkFileBytes body clock.mtime),
    { version := version
      timestamp := clock.timestamp
      totalChunks := chunks.length
      chunks := cds.map (descriptorOf body clock.mtime)
      eventNames := event_names
      totalCompressedSize :=
        ((cds.map (descriptorOf body clock.mtime)).map ChunkDescriptor.compressedSize).sum })

/-- C7: every serialized chunk's stored total-chunk-count field equals
the number of chunks produced by `split_into_chunks`, the manifest's
`totalChunks` field equals that same number, and the empty record
sequence yields zero chunks and a manifest with `totalChunks = 0`. -/
theorem C7_chunk_count_consistency (R : List Record) (B : Nat)
    (body : List Nat → List Nat) (clock : RunClock)
    (event_names : List (Nat × String)) (version : String)
    (cd : ChunkData) (hcd : cd ∈ chunkDatasOf (split_into_chunks R B)) :
    cd.totalChunks = (split_into_chunks R B).length ∧
      (compress_and_save_chunks body clock (split_into_chunks R B)
        event_names version).2.totalChunks = (split_into_chunks R B).length ∧
      split_into_chunks [] B = [] ∧
      (compress_and_save_chunks body clock (split_into_chunks [] B)
        event_names version).2.totalChunks = 0 := by
  refine ⟨?_, rfl, ?_, ?_⟩
  · rcases List.mem_map.mp hcd with ⟨p, _, hp⟩
    rw [← hp]
  · rw [split_into_chunks, splitGo]
    simp
  · rw [split_into_chunks, splitGo]
    simp [compress_and_save_chunks, split_into_chunks, splitGo]

theorem C7_chunk_count_consistency_witness :
    ChunkData.mk [sampleRecord] 0 1 ∈
        chunkDatasOf (split_into_chunks [sampleRecord] 10) ∧
      (ChunkData.mk [sampleRecord] 0 1).totalChunks =
          (split_into_chunks [sampleRecord] 10).length ∧
        (compress_and_save_chunks id (RunClock.mk "v" "t" 0)
          (split_into_chunks [sampleRecord] 10) [] "v").2.totalChunks =
            (split_into_chunks [sampleRecord] 10).length ∧
        split_into_chunks [] 10 = [] ∧
        (compress_and_save_chunks id (RunClock.mk "v" "t" 0)
          (split_into_chunks [] 10) [] "v").2.totalChunks = 0 :=
  ⟨by decide,
    C7_chunk_count_consistency [sampleRecord] 10 id (RunClock.mk "v" "t" 0) [] "v"
      (ChunkData.mk [sampleRecord] 0 1) (by decide)⟩

/-! ## The extractor (`extract_dialogues_recursive`)

One entry of a document's `Dialogue` list, in the shapes the source
distinguishes: a two-element list `[speaker, content]`; a dict with a
`branch` key holding options `[choice_text, [nested dialogues]]`; a dict
with a `branch` key whose value is not iterable, so that
`for branch_option in item['branch']` raises `TypeError`
(`Item.branchBad`); and any other unrecognized shape, which the loop
skips silently (`Item.other`). -/

mutual

/-- One entry of a `Dialogue` list, in the shapes the loop distinguishes:
`line` for a two-element list `[speaker, content]`, `branch` for a dict
with a `branch` key holding an option list, `branchBad` for a dict with a
`branch` key whose value is not iterable (so that
`for branch_option in item['branch']` raises `TypeError`), and `other`
for any unrecognized shape, skipped silently. -/
inductive Item where
  | line (speaker content : String)
  | branch (options : OptionList)
  | branchBad
  | other

/-- A `Dialogue` list (a mutual family rather than `List Item`, so that
the recursion below is structural). -/
inductive ItemList where
  | nil
  | cons (head : Item) (tail : ItemList)

/-- A branch's option list: each option is `[choice_text, [dialogues]]`. -/
inductive OptionList where
  | nil
  | cons (choice : String) (nodes : ItemList) (tail : OptionList)

end

/-- The reserved speaker literal used for a branch option's synthetic
choice record (`'選択肢'` in the source). -/
def choiceMarker : String := "選択肢"

mutual

/-- Model of `extract_dialogues_recursive(dialogue_list, scenario_type, scenario_id,
all_dialogues, title)`.  The shared accumulator `all_dialogues` is
threaded explicitly; the returned flag is `true` when a `TypeError`
escaped (iterating a non-iterable `branch` value).  Because the Python
accumulator is mutated in place, records appended before such a raise are
kept even though the exception propagates to the caller. -/
def extract_dialogues_recursive (scenario_type scenario_id title : String) :
    ItemList → List Record → List Record × Bool
  | .nil, acc => (acc, false)
  | .cons (.line s c) rest, acc =>
      extract_dialogues_recursive scenario_type scenario_id title rest
        (acc ++ [⟨scenario_type, scenario_id, s, c, title⟩])
  | .cons (.branch opts) rest, acc =>
      match extractOptions scenario_type scenario_id title opts acc with
      | (acc2, true) => (acc2, true)
      | (acc2, false) => extract_dialogues_recursive scenario_type scenario_id title rest acc2
  | .cons .branchBad _, acc => (acc, true)
  | .cons .other rest, acc =>
      extract_dialogues_recursive scenario_type scenario_id title rest acc
termination_by structural l => l

/-- The inner `for branch_option in item['branch']` loop: appends the
synthetic choice record, then recurses into the option's dialogue list. -/
def extractOptions (scenario_type scenario_id title : String) :
    OptionList → List Record → List Record × Bool
  | .nil, acc => (acc, false)
  | .cons choice sub rest, acc =>
      match extract_dialogues_recursive scenario_type scenario_id title sub
          (acc ++ [⟨scenario_type, scenario_id, choiceMarker, choice, title⟩]) with
      | (acc2, true) => (acc2, true)
      | (acc2, false) => extractOptions scenario_type scenario_id title rest acc2
termination_by structural l => l

end

mutual

/-- A `Dialogue` list none of whose entries (at any nesting depth) raises
during extraction. -/
def wfItems : ItemList → Bool
  | .nil => true
  | .cons (.line _ _) rest => wfItems rest
  | .cons (.branch opts) rest => wfOptions opts && wfItems rest
  | .cons .branchBad _ => false
  | .cons .other rest => wfItems rest
termination_by structural l => l

/-- Well-formedness of a branch's option list. -/
def wfOptions : OptionList → Bool
  | .nil => true
  | .cons _ sub rest => wfItems sub && wfOptions rest
termination_by structural l => l

end

mutual

/-- The flattening claimed by the specification, written from its words:
depth-first and left-to-right; a line `[speaker, content]` emits exactly
one record verbatim; a branch emits, for each option in source order, one
synthetic record with the reserved choice marker as speaker and the
option's choice label as content, immediately followed by the records of
the option's nested node list, before the next option. -/
def flattenSpecItems (scenario_type scenario_id title : String) :
    ItemList → List Record
  | .nil => []
  | .cons (.line s c) rest =>
      ⟨scenario_type, scenario_id, s, c, title⟩ ::
        flattenSpecItems scenario_type scenario_id title rest
  | .cons (.branch opts) rest =>
      flattenSpecOptions scenario_type scenario_id title opts ++
        flattenSpecItems scenario_type scenario_id title rest
  | .cons .branchBad rest => flattenSpecItems scenario_type scenario_id title rest
  | .cons .other rest => flattenSpecItems scenario_type scenario_id title rest
termination_by structural l => l

/-- Spec-side flattening of a branch's options. -/
def flattenSpecOptions (scenario_type scenario_id title : String) :
    OptionList → List Record
  | .nil => []
  | .cons choice sub rest =>
      ⟨scenario_type, scenario_id, choiceMarker, choice, title⟩ ::
        (flattenSpecItems scenario_type scenario_id title sub ++
          flattenSpecOptions scenario_type scenario_id title rest)
termination_by structural l => l

end

mutual

theorem extract_eq_flattenSpec (st sid title : String) (items : ItemList)
    (acc : List Record) (hwf : wfItems items = true) :
    extract_dialogues_recursive st sid title items acc =
      (acc ++ flattenSpecItems st sid title items, false) := by
  match items with
  | .nil => simp [extract_dialogues_recursive, flattenSpecItems]
  | .cons (.line s c) rest =>
      rw [wfItems] at hwf
      rw [extract_dialogues_recursive,
        extract_eq_flattenSpec st sid title rest _ hwf, flattenSpecItems]
      simp
  | .cons (.branch opts) rest =>
      rw [wfItems, Bool.and_eq_true] at hwf
      rw [extract_dialogues_recursive,
        extractOptions_eq_flattenSpec st sid title opts acc hwf.1]
      show extract_dialogues_recursive st sid title rest
          (acc ++ flattenSpecOptions st sid title opts) = _
      rw [extract_eq_flattenSpec st sid title rest _ hwf.2, flattenSpecItems]
      simp
  | .cons .branchBad rest =>
      rw [wfItems] at hwf
      exact absurd hwf (by simp)
  | .cons .other rest =>
      rw [wfItems] at hwf
      rw [extract_dialogues_recursive,
        extract_eq_flattenSpec st sid title rest _ hwf, flattenSpecItems]
termination_by structural items

theorem extractOptions_eq_flattenSpec (st sid title : String) (opts : OptionList)
    (acc : List Record) (hwf : wfOptions opts = true) :
    extractOptions st sid title opts acc =
      (acc ++ flattenSpecOptions st sid title opts, false) := by
  match opts with
  | .nil => simp [extractOptions, flattenSpecOptions]
  | .cons choice sub rest =>
      rw [wfOptions, Bool.and_eq_true] at hwf
      rw [extractOptions,
        extract_eq_flattenSpec st sid title sub _ hwf.1]
      show extractOptions st sid title rest
          (acc ++ [⟨st, sid, choiceMarker, choice, title⟩] ++
            flattenSpecItems st sid title sub) = _
      rw [extractOptions_eq_flattenSpec st sid title rest _ hwf.2, flattenSpecOptions]
      simp
termination_by structural opts

end

/-- C3: on well-formed dialogue lists, flattening is depth-first and
left-to-right: the extractor's output is exactly the accumulator followed
by `flattenSpecItems`, the flattening stated by the specification — a
line node emits one record with speaker and content verbatim, and a
branch node emits, for each option in source order, one synthetic record
whose speaker is the reserved choice marker `選択肢` and whose content is
the option's choice label, immediately followed by the records of that
option's nested node list, before the next option. -/
theorem C3_branch_flattening (st sid title : String) (items : ItemList)
    (acc : List Record) (hwf : wfItems items = true) :
    extract_dialogues_recursive st sid title items acc =
      (acc ++ flattenSpecItems st sid title items, false) :=
  extract_eq_flattenSpec st sid title items acc hwf

/-- The specification's branch-ordering example document:
`[["A","hi"], {branch: [["go left", [["B","left!"]]], ["go right", [["B","right!"]]]]}]`. -/
def exampleDialogue : ItemList :=
  .cons (.line "A" "hi")
    (.cons (.branch
      (.cons "go left" (.cons (.line "B" "left!") .nil)
        (.cons "go right" (.cons (.line "B" "right!") .nil) .nil)))
      .nil)

theorem C3_branch_flattening_witness :
    wfItems exampleDialogue = true ∧
      extract_dialogues_recursive "main" "1" "T" exampleDialogue [] =
        ([⟨"main", "1", "A", "hi", "T"⟩,
          ⟨"main", "1", choiceMarker, "go left", "T"⟩,
          ⟨"main", "1", "B", "left!", "T"⟩,
          ⟨"main", "1", choiceMarker, "go right", "T"⟩,
          ⟨"main", "1", "B", "right!", "T"⟩], false) :=
  ⟨rfl, C3_branch_flattening "main" "1" "T" exampleDialogue [] rfl⟩

/-! ## Python string primitives

Character-list implementations of the `str` methods the loader uses,
so every definition evaluates on concrete inputs. -/

/-- One step of `str.replace`: scan left to right, replacing each
(non-overlapping) occurrence of `pat`; `fuel` bounds the recursion and is
instantiated with the input length. -/
def replaceFuel (pat repl : List Char) : Nat → List Char → List Char
  | _, [] => []
  | 0, l => l
  | fuel + 1, c :: rest =>
      if pat ≠ [] ∧ (c :: rest).take pat.length = pat then
        repl ++ replaceFuel pat repl fuel ((c :: rest).drop pat.length)
      else c :: replaceFuel pat repl fuel rest

/-- Python `s.replace(pat, repl)` for a non-empty pattern. -/
def pyReplace (s pat repl : String) : String :=
  String.mk (replaceFuel pat.data repl.data s.data.length s.data)

/-- The characters before the first occurrence of the (non-empty)
separator: `s.split(sep)[0]`. -/
def takeBeforeSep (sep : List Char) : List Char → List Char
  | [] => []
  | c :: rest =>
      if (c :: rest).take sep.length = sep then []
      else c :: takeBeforeSep sep rest

/-- Python `s.split(sep)[0]` for a non-empty separator. -/
def pySplitHead (s sep : String) : String :=
  String.mk (takeBeforeSep sep.data s.data)

/-- Python `s.strip()`: whitespace removed from both ends. -/
def pyStrip (s : String) : String :=
  String.mk (((s.data.dropWhile Char.isWhitespace).reverse.dropWhile
    Char.isWhitespace).reverse)

/-- Python `int(s)`, modelled for the nonnegative digit-string ids in question:
an all-digit string parses in base 10, anything else raises (`none`). -/
def pyInt (s : String) : Option Nat :=
  if s.data ≠ [] ∧ s.data.all Char.isDigit then
    some (s.data.foldl (fun n c => n * 10 + (c.toNat - 48)) 0)
  else none

/-! ## Loading documents (`load_all_dialogues`)

This models the regular-category loop (lines 59–98 of the source): the
five categories `main, card, event, love, caulis` visited in that
hardcoded order, each with its lexicographically sorted file list.  The
special-type loops (lines 100–202) append further records with the same
per-file try/except pattern and never touch `event_names`. -/

/-- The `Dialogue` field of a parsed document: absent, present but not a
list (`isinstance(data['Dialogue'], list)` fails), or a list of entries. -/
inductive DialogueField where
  | absent
  | notList
  | list (items : ItemList)

/-- A parsed document: the optional `Title` string and the `Dialogue`
field. -/
structure RawDoc where
  title : Option String
  dialogue : DialogueField

/-- The outcome of `open` plus `json.load` on one file: an exception
(unreadable file or invalid JSON) or a parsed document. -/
inductive FileData where
  | unreadable
  | ok (doc : RawDoc)

/-- One discovered source file: filename stem (`json_file.stem`) and its
contents. -/
structure SrcFile where
  stem : String
  data : FileData

/-- Scenario id derivation: `stem.replace('caulis_story_', '')` for the
caulis category, `stem.replace(f'scenario_{scenario_type}_', '')`
otherwise. -/
def scenarioIdOf (scenario_type stem : String) : String :=
  if scenario_type = "caulis" then pyReplace stem "caulis_story_" ""
  else pyReplace stem ("scenario_" ++ scenario_type ++ "_") ""

/-- Event display title:
`data['Title'].split('|')[0].replace('<br>', ' ').strip()`. -/
def eventTitleOf (t : String) : String :=
  pyStrip (pyReplace (pySplitHead t "|") "<br>" " ")

/-- Event id: `int(scenario_id.split('-')[0])`; `none` models the raised
`ValueError`. -/
def eventIdOf (sid : String) : Option Nat :=
  pyInt (pySplitHead sid "-")

/-- The update `if event_id not in event_names: event_names[event_id] = event_title`
over the insertion-ordered association list modelling the dict. -/
def insertIfAbsent (m : List (Nat × String)) (k : Nat) (v : String) :
    List (Nat × String) :=
  if (m.lookup k).isSome then m else m ++ [(k, v)]

/-- The dialogue-extraction step of the per-file body: runs only when
`Dialogue` is present and is a list.  The accumulator state reached when
extraction raises is kept (the Python lists and dict are mutated in
place). -/
def extractStep (scenario_type sid : String) (doc : RawDoc)
    (recs : List Record) (ev : List (Nat × String)) :
    List Record × List (Nat × String) :=
  match doc.dialogue with
  | .list items =>
      ((extract_dialogues_recursive scenario_type sid (doc.title.getD "")
        items recs).1, ev)
  | _ => (recs, ev)

/-- The per-file `try` body for a regular category, with its `except`
semantics: an unreadable file contributes nothing; for the event-bearing
categories with a `Title`, a failing `int()` aborts the document before
anything was recorded; afterwards the event-name entry is inserted
(first-wins) and dialogue extraction runs. -/
def processFile (scenario_type : String) (f : SrcFile)
    (recs : List Record) (ev : List (Nat × String)) :
    List Record × List (Nat × String) :=
  match f.data with
  | .unreadable => (recs, ev)
  | .ok doc =>
      let sid := scenarioIdOf scenario_type f.stem
      if (scenario_type = "event" ∨ scenario_type = "caulis") ∧ doc.title ≠ none then
        match eventIdOf sid with
        | none => (recs, ev)
        | some event_id =>
            extractStep scenario_type sid doc recs
              (insertIfAbsent ev event_id (eventTitleOf (doc.title.getD "")))
      else extractStep scenario_type sid doc recs ev

/-- The `for json_file in json_files` loop over one category's sorted
file list, threading the shared accumulators. -/
def loadCategoryFiles (scenario_type : String) :
    List SrcFile → List Record × List (Nat × String) →
      List Record × List (Nat × String)
  | [], st => st
  | f :: rest, (recs, ev) =>
      loadCategoryFiles scenario_type rest (processFile scenario_type f recs ev)

/-- One regular category: a missing directory is skipped with a warning. -/
def loadCategory (scenario_type : String) (dir : Option (List SrcFile))
    (st : List Record × List (Nat × String)) :
    List Record × List (Nat × String) :=
  match dir with
  | none => st
  | some files => loadCategoryFiles scenario_type files st

/-- The corpus as discovered on disk: one optional directory (with files
in sorted order) per regular category; `none` models a missing
directory. -/
structure Corpus where
  main : Option (List SrcFile)
  card : Option (List SrcFile)
  event : Option (List SrcFile)
  love : Option (List SrcFile)
  caulis : Option (List SrcFile)

/-- Model of `load_all_dialogues()` over the regular categories, in the hardcoded
order `types = ['main', 'card', 'event', 'love', 'caulis']`. -/
def load_all_dialogues (c : Corpus) : List Record × List (Nat × String) :=
  loadCategory "caulis" c.caulis
    (loadCategory "love" c.love
      (loadCategory "event" c.event
        (loadCategory "card" c.card
          (loadCategory "main" c.main ([], [])))))

/-! ## Event-name first-wins (C5) -/

/-- The event-name entry one document proposes: present exactly when the
file is readable, its category is event-bearing, a `Title` is present and
the id segment parses. -/
def eventEntryOf (scenario_type : String) (f : SrcFile) : Option (Nat × String) :=
  match f.data with
  | .unreadable => none
  | .ok doc =>
      if (scenario_type = "event" ∨ scenario_type = "caulis") ∧ doc.title ≠ none then
        match eventIdOf (scenarioIdOf scenario_type f.stem) with
        | none => none
        | some event_id => some (event_id, eventTitleOf (doc.title.getD ""))
      else none

/-- Applying one proposed entry to the map (no-op when none). -/
def applyEntry (ev : List (Nat × String)) : Option (Nat × String) → List (Nat × String)
  | none => ev
  | some (k, v) => insertIfAbsent ev k v

/-- Folding a list of proposed entries into the map, first-wins. -/
def insertAll (ev : List (Nat × String)) (l : List (Nat × String)) :
    List (Nat × String) :=
  l.foldl (fun m p => insertIfAbsent m p.1 p.2) ev

/-- The first proposed title for `k`, in proposal order. -/
def firstProposal (l : List (Nat × String)) (k : Nat) : Option String :=
  (l.find? (fun p => p.1 == k)).map Prod.snd

/-- Entries proposed by one category directory, in discovery order. -/
def proposalsOf (scenario_type : String) (dir : Option (List SrcFile)) :
    List (Nat × String) :=
  (dir.getD []).filterMap (eventEntryOf scenario_type)

/-- All entries proposed by the corpus, in discovery order. -/
def corpusProposals (c : Corpus) : List (Nat × String) :=
  proposalsOf "main" c.main ++ proposalsOf "card" c.card ++
    proposalsOf "event" c.event ++ proposalsOf "love" c.love ++
    proposalsOf "caulis" c.caulis

theorem extractStep_snd (scenario_type sid : String) (doc : RawDoc)
    (recs : List Record) (ev : List (Nat × String)) :
    (extractStep scenario_type sid doc recs ev).2 = ev := by
  cases doc with
  | mk title dialogue => cases dialogue <;> simp [extractStep]

theorem processFile_snd (scenario_type : String) (f : SrcFile)
    (recs : List Record) (ev : List (Nat × String)) :
    (processFile scenario_type f recs ev).2 =
      applyEntry ev (eventEntryOf scenario_type f) := by
  cases f with
  | mk stem data =>
      cases data with
      | unreadable => simp [processFile, eventEntryOf, applyEntry]
      | ok doc =>
          simp only [processFile, eventEntryOf]
          by_cases hg : (scenario_type = "event" ∨ scenario_type = "caulis") ∧
              doc.title ≠ none
          · rw [if_pos hg, if_pos hg]
            cases h : eventIdOf (scenarioIdOf scenario_type stem) <;>
              simp [h, applyEntry, extractStep_snd]
          · rw [if_neg hg, if_neg hg]
            simp [extractStep_snd, applyEntry]

theorem or_assoc_opt (a b c : Option String) :
    (a.or b).or c = a.or (b.or c) := by
  cases a <;> simp [Option.or]

theorem loadCategoryFiles_snd (scenario_type : String) (files : List SrcFile) :
    ∀ recs ev,
      (loadCategoryFiles scenario_type files (recs, ev)).2 =
        insertAll ev (files.filterMap (eventEntryOf scenario_type)) := by
  induction files with
  | nil => intro recs ev; simp [loadCategoryFiles, insertAll]
  | cons f rest ih =>
      intro recs ev
      rw [loadCategoryFiles]
      cases hp : processFile scenario_type f recs ev with
      | mk recs' ev' =>
          have h2 : ev' = applyEntry ev (eventEntryOf scenario_type f) := by
            have h0 := processFile_snd scenario_type f recs ev
            rw [hp] at h0
            exact h0
          rw [ih recs' ev', h2]
          cases he : eventEntryOf scenario_type f with
          | none => simp [applyEntry, List.filterMap_cons, he]
          | some p =>
              cases p with
              | mk k v => simp [applyEntry, List.filterMap_cons, he, insertAll]

theorem lookup_append_ev (a b : List (Nat × String)) (k : Nat) :
    (a ++ b).lookup k = ((a.lookup k).or (b.lookup k)) := by
  induction a with
  | nil => simp [List.lookup, Option.or]
  | cons p rest ih =>
      cases p with
      | mk k' v' =>
          by_cases h : k = k'
          · subst h; simp [List.lookup, Option.or]
          · have hb : (k == k') = false := by simpa using h
            simp [List.lookup, hb, ih]

theorem lookup_insertIfAbsent (ev : List (Nat × String)) (k' : Nat) (v' : String)
    (k : Nat) :
    (insertIfAbsent ev k' v').lookup k =
      (ev.lookup k).or (if k' = k then some v' else none) := by
  rw [insertIfAbsent]
  by_cases h : (ev.lookup k').isSome
  · rw [if_pos h]
    by_cases hk : k' = k
    · subst hk
      cases hh : ev.lookup k' with
      | none => rw [hh] at h; simp at h
      | some a => simp [hh, Option.or]
    · cases hh : ev.lookup k <;> simp [hk, Option.or]
  · rw [if_neg h, lookup_append_ev]
    congr 1
    by_cases hk : k = k'
    · subst hk; simp [List.lookup]
    · have hb : (k == k') = false := by simpa using hk
      have hk2 : ¬ k' = k := fun hkk => hk hkk.symm
      simp [List.lookup, hb, hk2]

theorem lookup_insertAll (l : List (Nat × String)) :
    ∀ ev k, (insertAll ev l).lookup k = (ev.lookup k).or (firstProposal l k) := by
  induction l with
  | nil =>
      intro ev k
      cases h : ev.lookup k <;>
        simp [insertAll, firstProposal, List.find?, h, Option.or]
  | cons p l ih =>
      intro ev k
      cases p with
      | mk k' v' =>
          rw [show insertAll ev ((k', v') :: l) =
              insertAll (insertIfAbsent ev k' v') l from rfl]
          rw [ih, lookup_insertIfAbsent, or_assoc_opt]
          congr 1
          by_cases hk : k' = k
          · subst hk; simp [firstProposal, List.find?_cons, Option.or]
          · have hb : (k' == k) = false := by simpa using hk
            simp [firstProposal, List.find?_cons, hb, hk, Option.or]

theorem loadCategory_snd (scenario_type : String) (dir : Option (List SrcFile))
    (st : List Record × List (Nat × String)) :
    (loadCategory scenario_type dir st).2 =
      insertAll st.2 (proposalsOf scenario_type dir) := by
  cases dir with
  | none => simp [loadCategory, proposalsOf, insertAll]
  | some files =>
      cases st with
      | mk recs ev =>
          simpa [loadCategory, proposalsOf] using
            loadCategoryFiles_snd scenario_type files recs ev

theorem load_all_dialogues_snd (c : Corpus) :
    (load_all_dialogues c).2 = insertAll [] (corpusProposals c) := by
  rw [load_all_dialogues, corpusProposals, loadCategory_snd, loadCategory_snd,
    loadCategory_snd, loadCategory_snd, loadCategory_snd]
  simp [insertAll, List.foldl_append]

/-- C5: the event-name mapping is first-wins — for every event id, the
stored display title is the entry derived (`eventEntryOf`) from the first
document in discovery order that maps to that id; later documents with
the same id never overwrite it. -/
theorem C5_event_name_first_wins (c : Corpus) (id : Nat) :
    ((load_all_dialogues c).2).lookup id =
      ((corpusProposals c).find? (fun p => p.1 == id)).map Prod.snd := by
  rw [load_all_dialogues_snd, lookup_insertAll]
  simp [List.lookup, firstProposal, Option.or]

/-! ## Malformed documents (C9, C10) -/

/-- A document the loader skips without contributing anything: the file is
unreadable (or not valid JSON), or it is an event-bearing document with a
`Title` whose scenario-id segment fails to parse as an integer, so the
per-file handler aborts before anything was recorded. -/
def contributesNothing (scenario_type : String) (f : SrcFile) : Bool :=
  match f.data with
  | .unreadable => true
  | .ok doc =>
      decide ((scenario_type = "event" ∨ scenario_type = "caulis") ∧
          doc.title ≠ none) &&
        (eventIdOf (scenarioIdOf scenario_type f.stem)).isNone

theorem processFile_skip (scenario_type : String) (f : SrcFile)
    (h : contributesNothing scenario_type f = true)
    (recs : List Record) (ev : List (Nat × String)) :
    processFile scenario_type f recs ev = (recs, ev) := by
  cases f with
  | mk stem data =>
      cases data with
      | unreadable => simp [processFile]
      | ok doc =>
          rw [contributesNothing, Bool.and_eq_true, decide_eq_true_iff,
            Option.isNone_iff_eq_none] at h
          simp only [processFile]
          rw [if_pos h.1]
          simp [h.2]

/-- C9 (amended): a malformed document never aborts the run.  A
document that is unreadable, not valid JSON, or that raises before
anything was recorded (in particular an event-bearing document whose id
segment fails `int()`) contributes no records and no event-name entry,
and the remaining documents in discovery order produce exactly what they
would have produced without it.  (A document that raises midway through
dialogue extraction instead keeps the records already appended — see the
counterexample.) -/
theorem C9_amended_malformed_document_skipped (scenario_type : String)
    (f : SrcFile) (h : contributesNothing scenario_type f = true)
    (pre post : List SrcFile) (st : List Record × List (Nat × String)) :
    loadCategoryFiles scenario_type (pre ++ f :: post) st =
      loadCategoryFiles scenario_type (pre ++ post) st := by
  induction pre generalizing st with
  | nil =>
      cases st with
      | mk recs ev =>
          simp only [List.nil_append, loadCategoryFiles,
            processFile_skip scenario_type f h]
  | cons g pre ih =>
      cases st with
      | mk recs ev =>
          simp only [List.cons_append, loadCategoryFiles]
          exact ih _

/-- An unreadable file placed between two readable ones. -/
def lineDoc (stem sp co : String) : SrcFile :=
  SrcFile.mk stem (.ok ⟨some "T", .list (.cons (.line sp co) .nil)⟩)

theorem C9_amended_malformed_document_skipped_witness :
    contributesNothing "main" (SrcFile.mk "scenario_main_002" .unreadable) = true ∧
      loadCategoryFiles "main"
          [lineDoc "scenario_main_001" "A" "x",
            SrcFile.mk "scenario_main_002" .unreadable,
            lineDoc "scenario_main_003" "B" "y"] ([], []) =
        loadCategoryFiles "main"
          [lineDoc "scenario_main_001" "A" "x",
            lineDoc "scenario_main_003" "B" "y"] ([], []) :=
  ⟨by decide,
    C9_amended_malformed_document_skipped "main"
      (SrcFile.mk "scenario_main_002" .unreadable) (by decide)
      [lineDoc "scenario_main_001" "A" "x"]
      [lineDoc "scenario_main_003" "B" "y"] ([], [])⟩

/-- A document whose `Dialogue` list raises a `TypeError` after its first
entry was already extracted. -/
def raisingDoc : SrcFile :=
  SrcFile.mk "scenario_main_001"
    (.ok ⟨some "T", .list (.cons (.line "A" "hi") (.cons .branchBad .nil))⟩)

/-- A corpus holding only the raising document. -/
def corpusC9 : Corpus := ⟨some [raisingDoc], none, none, none, none⟩

/-- C9 is false as stated: a document that raises during its
processing can still contribute records.  `raisingDoc`'s dialogue list
raises a `TypeError` at its second entry (a `branch` whose value is not
iterable), yet the whole run keeps the record extracted from the first
entry, because the shared accumulator was already mutated when the
exception reached the per-file handler. -/
theorem C9_counterexample :
    (extract_dialogues_recursive "main" "001" "T"
        (.cons (.line "A" "hi") (.cons .branchBad .nil)) []).2 = true ∧
      (load_all_dialogues corpusC9).1 = [⟨"main", "001", "A", "hi", "T"⟩] := by
  decide

/-- C10: for an event-bearing document with a `Title`, event-name
extraction runs before dialogue extraction inside the same per-document
handler, so when the leading `-`-separated segment of the scenario id
fails to parse as an integer the entire document is skipped — no records
and no event-name entry — regardless of its `Dialogue` field. -/
theorem C10_event_id_failure_skips_document (scenario_type : String)
    (f : SrcFile) (doc : RawDoc) (t : String)
    (hct : scenario_type = "event" ∨ scenario_type = "caulis")
    (hdata : f.data = .ok doc) (htitle : doc.title = some t)
    (hid : eventIdOf (scenarioIdOf scenario_type f.stem) = none)
    (recs : List Record) (ev : List (Nat × String)) :
    processFile scenario_type f recs ev = (recs, ev) := by
  cases f with
  | mk stem data =>
      simp only at hdata hid
      subst hdata
      simp only [processFile]
      rw [if_pos ⟨hct, by simp [htitle]⟩]
      simp [hid]

/-- An event document with a well-formed dialogue but a non-numeric id. -/
def badIdDoc : SrcFile :=
  SrcFile.mk "scenario_event_abc-1"
    (.ok ⟨some "X|Y", .list (.cons (.line "B" "c") .nil)⟩)

theorem C10_event_id_failure_skips_document_witness :
    (("event" : String) = "event" ∨ ("event" : String) = "caulis") ∧
      badIdDoc.data = .ok ⟨some "X|Y", .list (.cons (.line "B" "c") .nil)⟩ ∧
      (⟨some "X|Y", .list (.cons (.line "B" "c") .nil)⟩ : RawDoc).title = some "X|Y" ∧
      eventIdOf (scenarioIdOf "event" badIdDoc.stem) = none ∧
      processFile "event" badIdDoc [] [] = ([], []) :=
  ⟨Or.inl rfl, rfl, rfl, by decide,
    C10_event_id_failure_skips_document "event" badIdDoc
      ⟨some "X|Y", .list (.cons (.line "B" "c") .nil)⟩ "X|Y"
      (Or.inl rfl) rfl rfl (by decide) [] []⟩

/-! ## The whole pipeline (`main`) and idempotent re-runs (C4) -/

/-- Model of `main()`: load all dialogues, split into `CHUNK_SIZE_BYTES` chunks,
compress and save; `version = datetime.now().strftime('%Y-%m-%d')`.  The
clock readings and the abstract deflate body are explicit inputs. -/
def main_run (body : List Nat → List Nat) (clock : RunClock) (corpus : Corpus) :
    List (List Nat) × Manifest :=
  compress_and_save_chunks body clock
    (split_into_chunks (load_all_dialogues corpus).1 CHUNK_SIZE_BYTES)
    (load_all_dialogues corpus).2 clock.versionDate

theorem gzip_length (body : List Nat → List Nat) (m : Nat) (d : List Nat) :
    (gzipCompress body m d).length = 10 + (body d).length := by
  simp [gzipCompress]
  omega

theorem descriptorOf_mtime (body : List Nat → List Nat) (m1 m2 : Nat)
    (cd : ChunkData) : descriptorOf body m1 cd = descriptorOf body m2 cd := by
  simp [descriptorOf, chunkFileBytes, gzip_length]

theorem map_getD_nil (f : ChunkData → List Nat) (l : List ChunkData) (i : Nat) :
    (l.map f).getD i [] = ((l[i]?).map f).getD [] := by
  rw [List.getD_eq_getD_get?, List.get?_eq_getElem?, List.getElem?_map]

theorem gzip_bytes_agree (body : List Nat → List Nat) (m1 m2 : Nat)
    (d : List Nat) (j : Nat) (hj : j < 4 ∨ 7 < j) :
    (gzipCompress body m1 d).getD j 0 = (gzipCompress body m2 d).getD j 0 := by
  rcases hj with hj | hj
  · interval_cases j <;> rfl
  · by_cases h8 : j = 8
    · subst h8; rfl
    · by_cases h9 : j = 9
      · subst h9; rfl
      · have h10 : 10 ≤ j := by omega
        rw [gzipCompress, gzipCompress,
          List.getD_append_right _ _ _ _ (by simpa using h10),
          List.getD_append_right _ _ _ _ (by simpa using h10)]
        simp

/-- C4 (amended): running the pipeline twice on an unchanged corpus
with the same compressor produces (i) manifests that agree on every field
except the timestamp and the date-based version (so two runs on the same
date differ only in the timestamp); (ii) the same number of chunk files,
each pair of corresponding files having equal length and identical bytes
at every position outside the gzip header's 4-byte modification-time
field (bytes 4–7); and (iii) byte-identical chunk files whenever the two
runs read the same header time. -/
theorem C4_amended_idempotent_rerun (body : List Nat → List Nat)
    (c1 c2 : RunClock) (corpus : Corpus) (i j : Nat) (hj : j < 4 ∨ 7 < j) :
    ((main_run body c1 corpus).2 =
        { (main_run body c2 corpus).2 with
            version := c1.versionDate, timestamp := c1.timestamp }) ∧
      (main_run body c1 corpus).1.length = (main_run body c2 corpus).1.length ∧
      ((main_run body c1 corpus).1.getD i []).length =
        ((main_run body c2 corpus).1.getD i []).length ∧
      ((main_run body c1 corpus).1.getD i []).getD j 0 =
        ((main_run body c2 corpus).1.getD i []).getD j 0 ∧
      (c1.mtime = c2.mtime →
        (main_run body c1 corpus).1 = (main_run body c2 corpus).1) := by
  have hdesc : descriptorOf body c1.mtime = descriptorOf body c2.mtime :=
    funext (descriptorOf_mtime body c1.mtime c2.mtime)
  refine ⟨?_, ?_, ?_, ?_, ?_⟩
  · simp only [main_run, compress_and_save_chunks, hdesc]
  · simp [main_run, compress_and_save_chunks]
  · simp only [main_run, compress_and_save_chunks]
    rw [map_getD_nil, map_getD_nil]
    cases h : (chunkDatasOf (split_into_chunks (load_all_dialogues corpus).1
        CHUNK_SIZE_BYTES))[i]? with
    | none => rfl
    | some cd =>
        show (chunkFileBytes body c1.mtime cd).length =
          (chunkFileBytes body c2.mtime cd).length
        simp [chunkFileBytes, gzip_length]
  · simp only [main_run, compress_and_save_chunks]
    rw [map_getD_nil, map_getD_nil]
    cases h : (chunkDatasOf (split_into_chunks (load_all_dialogues corpus).1
        CHUNK_SIZE_BYTES))[i]? with
    | none => rfl
    | some cd =>
        show (chunkFileBytes body c1.mtime cd).getD j 0 =
          (chunkFileBytes body c2.mtime cd).getD j 0
        exact gzip_bytes_agree body c1.mtime c2.mtime _ j hj
  · intro hm
    simp only [main_run, compress_and_save_chunks, hm]

/-- Two clock readings one day apart. -/
def clockA : RunClock := ⟨"2025-01-01", "2025-01-01T00:00:00", 0⟩

/-- The second run's clock readings. -/
def clockB : RunClock := ⟨"2025-01-02", "2025-01-02T00:00:00", 1⟩

/-- A one-document corpus for the re-run counterexample. -/
def corpusC4 : Corpus :=
  ⟨some [lineDoc "scenario_main_001" "A" "x"], none, none, none, none⟩

theorem C4_amended_idempotent_rerun_witness :
    (0 < 4 ∨ 7 < 0) ∧
      ((main_run id clockA corpusC4).2 =
          { (main_run id clockB corpusC4).2 with
              version := clockA.versionDate, timestamp := clockA.timestamp }) ∧
        (main_run id clockA corpusC4).1.length =
          (main_run id clockB corpusC4).1.length ∧
        ((main_run id clockA corpusC4).1.getD 0 []).length =
          ((main_run id clockB corpusC4).1.getD 0 []).length ∧
        ((main_run id clockA corpusC4).1.getD 0 []).getD 0 0 =
          ((main_run id clockB corpusC4).1.getD 0 []).getD 0 0 ∧
        (clockA.mtime = clockB.mtime →
          (main_run id clockA corpusC4).1 = (main_run id clockB corpusC4).1) :=
  ⟨Or.inl (by decide),
    C4_amended_idempotent_rerun id clockA clockB corpusC4 0 0 (Or.inl (by decide))⟩

/-- C4 is false as stated: two runs on the unchanged one-document
corpus whose clock readings differ (by one day, hence one header-time
tick) produce chunk files that are not byte-identical — the gzip header
stores the run's time in bytes 4–7 — and manifests that differ in the
date-based `version` field, not only in the timestamp. -/
theorem C4_counterexample :
    (main_run id clockA corpusC4).1 ≠ (main_run id clockB corpusC4).1 ∧
      (main_run id clockA corpusC4).2.version ≠
        (main_run id clockB corpusC4).2.version := by
  decide

end BuildSearchChunks
